import Mathlib

/-!
Verification of the copertinefull ingestion/upsert pipeline.

Shallow embedding of the Python sources under `backend/`:
* `scrapedirectus.py` — Directus CMS adapter with deterministic-uuid upsert,
* `sd2.py` — second Directus scraper with delete-then-insert reconciliation,
* `experiments/missingdates.py` — gap detector,
* `includes/utils.py` — filename date extraction.

Machine words are `Nat` with explicit `% 2^32`; network and filesystem
effects are passed in explicitly as environment records; all Python
`try/except` fallbacks become `Option`/flagged results.
-/

/- ## Byte-level SHA-1, as used by Python `uuid.uuid5`
`weaviate.util.generate_uuid5(identifier, namespace)` is
`str(uuid.uuid5(uuid.NAMESPACE_DNS, str(namespace) + str(identifier)))`,
and `uuid.uuid5(ns, name)` is the first 16 bytes of
`SHA1(ns.bytes + name.encode('utf-8'))` with version/variant bits set. -/

/-- Modulus for 32-bit words. -/
def w32 : Nat := 4294967296

/-- Rotate a 32-bit word left by `r` bits. -/
def rotl (r x : Nat) : Nat := ((x <<< r) ||| (x >>> (32 - r))) % w32

/-- Big-endian assembly of bytes into 32-bit words (tail bytes beyond a
multiple of four are dropped; inputs are always 64-byte blocks). -/
def bytesToWords : List Nat → List Nat
  | b0 :: b1 :: b2 :: b3 :: rest =>
      (((b0 * 256 + b1) * 256 + b2) * 256 + b3) :: bytesToWords rest
  | _ => []

/-- Big-endian bytes of a 32-bit word. -/
def wordBytes (w : Nat) : List Nat :=
  [w / 16777216 % 256, w / 65536 % 256, w / 256 % 256, w % 256]

/-- MD-style padding: `0x80`, zeros, then the 64-bit big-endian bit length,
to a multiple of 64 bytes. -/
def sha1Pad (msg : List Nat) : List Nat :=
  let len := msg.length
  let bitLen := len * 8
  let zeros := (119 - len % 64) % 64
  msg ++ [128] ++ List.replicate zeros 0 ++
    [bitLen >>> 56 % 256, bitLen >>> 48 % 256, bitLen >>> 40 % 256,
     bitLen >>> 32 % 256, bitLen >>> 24 % 256, bitLen >>> 16 % 256,
     bitLen >>> 8 % 256, bitLen % 256]

/-- Extend a 16-word block to the 80-word message schedule (append `n` words). -/
def sha1Extend : List Nat → Nat → List Nat
  | ws, 0 => ws
  | ws, n + 1 =>
      let l := ws.length
      let nw := rotl 1 ((ws.getD (l - 3) 0) ^^^ (ws.getD (l - 8) 0) ^^^
        (ws.getD (l - 14) 0) ^^^ (ws.getD (l - 16) 0))
      sha1Extend (ws ++ [nw]) n

/-- Round function `f` of SHA-1 (round index `i`). -/
def sha1F (i b c d : Nat) : Nat :=
  if i < 20 then (b &&& c) ||| ((4294967295 ^^^ b) &&& d)
  else if i < 40 then b ^^^ c ^^^ d
  else if i < 60 then (b &&& c) ||| (b &&& d) ||| (c &&& d)
  else b ^^^ c ^^^ d

/-- Round constant `K` of SHA-1 (round index `i`). -/
def sha1K (i : Nat) : Nat :=
  if i < 20 then 1518500249
  else if i < 40 then 1859775393
  else if i < 60 then 2400959708
  else 3395469782

/-- The 80 compression rounds over the message schedule. -/
def sha1Rounds : Nat → List Nat → Nat × Nat × Nat × Nat × Nat → Nat × Nat × Nat × Nat × Nat
  | _, [], st => st
  | i, w :: ws, (a, b, c, d, e) =>
      let temp := (rotl 5 a + sha1F i b c d + e + sha1K i + w) % w32
      sha1Rounds (i + 1) ws (temp, a, rotl 30 b, c, d)

/-- Process the padded message 64-byte block by block (`fuel` bounds the
number of blocks; callers pass the byte length, which is always enough). -/
def sha1Outer (fuel : Nat) (msg : List Nat) (h : Nat × Nat × Nat × Nat × Nat) :
    Nat × Nat × Nat × Nat × Nat :=
  match fuel with
  | 0 => h
  | fuel + 1 =>
    match msg with
    | [] => h
    | _ =>
      let ws := sha1Extend (bytesToWords (msg.take 64)) 64
      let (h0, h1, h2, h3, h4) := h
      let (a, b, c, d, e) := sha1Rounds 0 ws (h0, h1, h2, h3, h4)
      sha1Outer fuel (msg.drop 64)
        ((h0 + a) % w32, (h1 + b) % w32, (h2 + c) % w32, (h3 + d) % w32, (h4 + e) % w32)

/-- SHA-1 digest (20 bytes) of a byte list. -/
def sha1 (msg : List Nat) : List Nat :=
  let padded := sha1Pad msg
  let (h0, h1, h2, h3, h4) := sha1Outer padded.length padded
    (1732584193, 4023233417, 2562383102, 271733878, 3285377520)
  wordBytes h0 ++ wordBytes h1 ++ wordBytes h2 ++ wordBytes h3 ++ wordBytes h4

/-- UTF-8 bytes of a string; the embedding only ever hashes ASCII strings,
where the encoding is the code points themselves. -/
def strBytes (s : String) : List Nat := s.data.map Char.toNat

/-- Bytes of `uuid.NAMESPACE_DNS` (`6ba7b810-9dad-11d1-80b4-00c04fd430c8`). -/
def namespaceDNSBytes : List Nat :=
  [0x6b, 0xa7, 0xb8, 0x10, 0x9d, 0xad, 0x11, 0xd1,
   0x80, 0xb4, 0x00, 0xc0, 0x4f, 0xd4, 0x30, 0xc8]

/-- UUIDv5 bytes: first 16 bytes of the SHA-1 of namespace bytes plus name
bytes, with the version nibble set to 5 and the RFC 4122 variant set. -/
def uuid5Bytes (nsBytes nameBytes : List Nat) : List Nat :=
  let d := (sha1 (nsBytes ++ nameBytes)).take 16
  let d6 := d.getD 6 0
  let d8 := d.getD 8 0
  (d.set 6 (d6 % 16 + 80)).set 8 (d8 % 64 + 128)

/-- Lowercase hex digit. -/
def hexDigitChar (n : Nat) : Char :=
  if n < 10 then Char.ofNat (48 + n) else Char.ofNat (87 + n)

/-- Two lowercase hex digits of a byte. -/
def byteHex (b : Nat) : List Char := [hexDigitChar (b / 16 % 16), hexDigitChar (b % 16)]

/-- Lowercase hex rendering of a byte list. -/
def bytesHex (l : List Nat) : String :=
  String.mk (l.foldr (fun b acc => byteHex b ++ acc) [])

/-- Canonical 8-4-4-4-12 textual form of 16 UUID bytes, as Python `str(uuid)`. -/
def uuidStrOfBytes (d : List Nat) : String :=
  bytesHex (d.take 4) ++ "-" ++ bytesHex ((d.drop 4).take 2) ++ "-" ++
    bytesHex ((d.drop 6).take 2) ++ "-" ++ bytesHex ((d.drop 8).take 2) ++ "-" ++
    bytesHex (d.drop 10)

/-- Embedding of `weaviate.util.generate_uuid5(identifier, namespace)`:
`str(uuid.uuid5(uuid.NAMESPACE_DNS, str(namespace) + str(identifier)))`. -/
def generate_uuid5 (identifier ns : String) : String :=
  uuidStrOfBytes (uuid5Bytes namespaceDNSBytes (strBytes (ns ++ identifier)))

/-- Textual form of the fixed namespace UUID in `scrapedirectus.store_in_weaviate`
(`UUID("c1e7c19c-2c4c-5c9c-9c9c-c1e7c19c2c4c")`). -/
def manifestoNamespaceStr : String := "c1e7c19c-2c4c-5c9c-9c9c-c1e7c19c2c4c"

/-- Store identifier derivation of `scrapedirectus.store_in_weaviate`:
`generate_uuid5(edition_id, namespace_uuid)`. -/
def storeId (editionId : String) : String := generate_uuid5 editionId manifestoNamespaceStr

/- ## Slugify (`slugify` in `scrapedirectus.py`, `_slugify` in `sd2.py`) -/

/-- Python `str.lower` over ASCII (all strings the scrapers slugify and
compare are handled ASCII-wise; `Char.toLower` matches on that range). -/
def pyLower (s : String) : String := String.mk (s.data.map Char.toLower)

/-- Python regex class `\s` over ASCII. -/
def isPySpace (c : Char) : Bool :=
  c == ' ' || c == '\t' || c == '\n' || c == '\r' || c == '\x0b' || c == '\x0c'

/-- Python regex word character `\w` over ASCII: letters, digits, underscore. -/
def isPyWordChar (c : Char) : Bool := c.isAlpha || c.isDigit || c == '_'

/-- Membership in the regex class `[\s\W]` used by the scrapers' slugify. -/
def isSlugSep (c : Char) : Bool := isPySpace c || !isPyWordChar c

/-- Embedding of `re.sub(r'[\s\W]+', '-', text)`: each maximal run of
class characters becomes one hyphen. `inRun` records whether the previous
character belonged to the current run. -/
def collapseSeps : Bool → List Char → List Char
  | _, [] => []
  | inRun, c :: cs =>
      if isSlugSep c then
        if inRun then collapseSeps true cs else '-' :: collapseSeps true cs
      else c :: collapseSeps false cs

/-- Python `str.strip('-')`. -/
def stripHyphens (l : List Char) : List Char :=
  ((l.dropWhile (· == '-')).reverse.dropWhile (· == '-')).reverse

/-- Embedding of `DirectusManifestoScraper.slugify` (`scrapedirectus.py`)
and `_slugify` (`sd2.py`): lowercase, collapse `[\s\W]+` runs to `-`,
strip leading and trailing hyphens. -/
def slugify (s : String) : String :=
  String.mk (stripHyphens (collapseSeps false (pyLower s).data))

/- ## Image download (`download_directus_image`, `_download_image`) -/

/-- Python truthiness of an optional string (`None` and `""` are falsy). -/
def pyTruthy : Option String → Bool
  | none => false
  | some s => s != ""

/-- Outcome-relevant part of an HTTP image response. -/
structure HttpResponse where
  statusCode : Nat
  contentType : Option String
  deriving DecidableEq

/-- Environment of one image download: whether the GET raised
`httpx.RequestError`, the response otherwise, the result of
`mimetypes.guess_extension` on the response's content-type, and whether
writing the bytes to disk raised. -/
structure DownloadEnv where
  requestError : Bool
  response : HttpResponse
  guessedExt : Option String
  saveError : Bool
  deriving DecidableEq

/-- Index where the `pathlib.Path.suffix` of a file name starts: the last
dot, provided it is not the leading character. -/
def lastDotIdx (l : List Char) : Option Nat :=
  (List.range l.length).foldl
    (fun acc i => if l.getD i ' ' == '.' && i != 0 then some i else acc) none

/-- Python `Path.with_suffix(ext)` on a bare file name. -/
def pathWithSuffix (name ext : String) : String :=
  match lastDotIdx name.data with
  | none => name ++ ext
  | some i => String.mk (name.data.take i) ++ ext

/-- Embedding of `DirectusManifestoScraper.download_directus_image`
(`scrapedirectus.py`). `Except.error ()` models the uncaught
`httpx.HTTPStatusError` raised by `raise_for_status` on a 4xx/5xx status:
the surrounding handler only catches `httpx.RequestError`, which is not a
superclass of it. A missing (or empty) content-type header returns `none`;
an unrecognized one falls back to extension `.jpg`. -/
def download_directus_image (env : DownloadEnv) (filename : String) :
    Except Unit (Option String) :=
  if env.requestError then .ok none
  else if 400 ≤ env.response.statusCode then .error ()
  else if env.response.statusCode == 200 then
    if !pyTruthy env.response.contentType then .ok none
    else
      let extension := env.guessedExt.getD ".jpg"
      if env.saveError then .ok none
      else .ok (some (pathWithSuffix filename extension))
  else .ok none

/-- Embedding of `DirectusManifestoScraper._download_image` (`sd2.py`).
Every exception (request error, `raise_for_status`, file write) is caught
by the blanket `except Exception` and yields `none`. A missing content-type
header falls back to `.jpg`, as does an unrecognized one. -/
def sd2_download_image (env : DownloadEnv) (baseFilename : String) : Option String :=
  if env.requestError then none
  else if 400 ≤ env.response.statusCode then none
  else if env.response.statusCode != 200 then none
  else
    let extension :=
      if !pyTruthy env.response.contentType then ".jpg"
      else env.guessedExt.getD ".jpg"
    if env.saveError then none
    else some (baseFilename ++ extension)

/- ## Store model and the `scrapedirectus.py` pipeline -/

/-- Python `datetime` restricted to the fields the scrapers read; `utc`
records whether `tzinfo` is `timezone.utc`. -/
structure PyDateTime where
  year : Nat
  month : Nat
  day : Nat
  hour : Nat
  minute : Nat
  second : Nat
  utc : Bool
  deriving DecidableEq

/-- Two-digit zero padding. -/
def pad2 (n : Nat) : String := if n < 10 then "0" ++ toString n else toString n

/-- Python `strftime("%d-%m-%Y")` (edition years are four-digit). -/
def strftimeDMY (d : PyDateTime) : String :=
  pad2 d.day ++ "-" ++ pad2 d.month ++ "-" ++ toString d.year

/-- Python `strftime("%Y-%m-%d")`. -/
def strftimeYMD (d : PyDateTime) : String :=
  toString d.year ++ "-" ++ pad2 d.month ++ "-" ++ pad2 d.day

/-- Python `datetime.isoformat()` for the values the scrapers build
(second resolution; a UTC offset renders as `+00:00`). -/
def pyIsoformat (d : PyDateTime) : String :=
  strftimeYMD d ++ "T" ++ pad2 d.hour ++ ":" ++ pad2 d.minute ++ ":" ++ pad2 d.second ++
    (if d.utc then "+00:00" else "")

/-- Directus article record with the fields the scrapers read.
`datePublished` is carried pre-parsed: the scrapers parse it with
`datetime.fromisoformat` before any use. -/
structure Article where
  id : String
  referenceHeadline : Option String
  articleKicker : Option String
  articleFeaturedImage : Option String
  datePublished : PyDateTime
  deriving DecidableEq

/-- Embedding of `_validate_article` (both scrapers): the required fields
`referenceHeadline` and `articleFeaturedImage` must be truthy; missing
optional fields only log warnings. -/
def validate_article (a : Article) : Bool :=
  pyTruthy a.referenceHeadline && pyTruthy a.articleFeaturedImage

/-- Property payload written for an edition (the `data` dict of both
`store_in_weaviate` variants). -/
structure CopertineData where
  testataName : String
  editionId : String
  editionDateIsoStr : String
  editionImageFnStr : String
  captionStr : Option String
  kickerStr : Option String
  deriving DecidableEq

/-- One object of the Weaviate `Copertine` collection: store-native uuid
plus properties. -/
structure StoredObject where
  uuid : String
  properties : CopertineData
  deriving DecidableEq

/-- The collection state: its objects in insertion order. -/
abbrev Store := List StoredObject

/-- Outcome tag mirroring the three log outcomes of
`scrapedirectus.store_in_weaviate`. -/
inductive StoreOutcome
  | inserted
  | replaced
  | failed
  deriving DecidableEq

/-- Weaviate `data.replace(properties=data, uuid=u)`: overwrite the
properties of the object with that id. -/
def weaviateReplace (store : Store) (u : String) (d : CopertineData) : Store :=
  List.map (fun o => if o.uuid == u then ⟨u, d⟩ else o) store

/-- The properties dict built by `scrapedirectus.store_in_weaviate` from
the article and the confirmed image filename. -/
def copertineDataOf (a : Article) (imageFilename : String) : CopertineData :=
  { testataName := "Il Manifesto"
    editionId := strftimeDMY a.datePublished
    editionDateIsoStr := pyIsoformat a.datePublished
    editionImageFnStr := imageFilename
    captionStr := a.referenceHeadline
    kickerStr := a.articleKicker }

/-- Embedding of `DirectusManifestoScraper.store_in_weaviate`
(`scrapedirectus.py`). The insert targets the deterministic uuid
`generate_uuid5(edition_id, namespace)`. If the store reports that the id
already exists, the code falls back to `data.replace` with the same uuid
and the same properties. `insertFault` models any other insert failure:
it is re-raised and only caught by the outer blanket handler, leaving the
store unchanged with outcome `failed`. -/
def store_in_weaviate (insertFault : Bool) (store : Store) (a : Article)
    (imageFilename : String) : Store × StoreOutcome :=
  let u := storeId (strftimeDMY a.datePublished)
  let data := copertineDataOf a imageFilename
  if insertFault then (store, .failed)
  else if store.any (fun o => o.uuid == u) then (weaviateReplace store u data, .replaced)
  else (store ++ [⟨u, data⟩], .inserted)

/-- Whether `p` is a leading run of `l`. -/
def listStartsWith : List Char → List Char → Bool
  | [], _ => true
  | _ :: _, [] => false
  | p :: ps, c :: cs => p == c && listStartsWith ps cs

/-- Python `str.split(sep)` for nonempty `sep`, over character lists.
The fuel is the input length plus one, enough because every step consumes
at least one character. -/
def splitOnAuxL (sep : List Char) : Nat → List Char → List Char → List (List Char)
  | 0, acc, l => [acc.reverse ++ l]
  | _ + 1, acc, [] => [acc.reverse]
  | fuel + 1, acc, c :: cs =>
      if listStartsWith sep (c :: cs) then
        acc.reverse :: splitOnAuxL sep fuel [] ((c :: cs).drop sep.length)
      else splitOnAuxL sep fuel (c :: acc) cs

/-- Python `str.split(sep)` on strings (every non-overlapping occurrence,
left to right; adjacent separators produce empty pieces). -/
def pySplit (s sep : String) : List String :=
  (splitOnAuxL sep.data (s.data.length + 1) [] s.data).map String.mk

/-- Last `/`-separated segment, as Python `url.split('/')[-1]`. -/
def lastSlashSegment (s : String) : String := (pySplit s "/").getLastD ""

/-- Embedding of `transform_image_url_to_filename` (`scrapedirectus.py`).
`assetUrl` stands for the `get_asset_url` lookup made in the
empty-headline fallback branch. The `date_str.split("-")` reformat needs
at least three components; the `IndexError` otherwise is caught and the
function returns `""`. -/
def transform_image_url_to_filename (assetUrl : Option String) (a : Article)
    (dateStr : String) : String :=
  if !pyTruthy a.referenceHeadline then
    match assetUrl with
    | some url => lastSlashSegment url
    | none => ""
  else
    match pySplit dateStr "-" with
    | p0 :: p1 :: p2 :: _ =>
        "il-manifesto_" ++ p0 ++ "-" ++ p1 ++ "-" ++ p2 ++ "_" ++
          slugify (a.referenceHeadline.getD "")
    | _ => ""

/-- Environment for processing one article in `scrapedirectus.py`: the
`get_asset_url` lookup result, the download environment, and the insert
fault flag. -/
structure ArticleEnv where
  assetUrl : Option String
  download : DownloadEnv
  insertFault : Bool
  deriving DecidableEq

/-- Embedding of `DirectusManifestoScraper._process_image`
(`scrapedirectus.py`): resolve the asset url, build the destination base
name, download, and only on a confirmed saved filename call
`store_in_weaviate`. `Except.error` propagates the uncaught download
exception, carrying the (unchanged) store. -/
def process_image (env : ArticleEnv) (store : Store) (a : Article)
    (dateStr : String) : Except Store Store :=
  if !pyTruthy env.assetUrl then .ok store
  else
    let fn := transform_image_url_to_filename env.assetUrl a dateStr
    if fn == "" then .ok store
    else
      match download_directus_image env.download fn with
      | .error () => .error store
      | .ok none => .ok store
      | .ok (some finalFn) => .ok (store_in_weaviate env.insertFault store a finalFn).1

/-- Embedding of `DirectusManifestoScraper._process_article`
(`scrapedirectus.py`). Returns the store, the updated
`processed_edition_ids` set, and whether the article reached
`_process_image`. -/
def process_article (env : ArticleEnv) (store : Store) (processed : List String)
    (a : Article) : Except Store (Store × List String × Bool) :=
  let dateStr := strftimeYMD a.datePublished
  if !validate_article a then .ok (store, processed, false)
  else
    let editionId := strftimeDMY a.datePublished
    if processed.contains editionId then .ok (store, processed, false)
    else
      match process_image env store a dateStr with
      | .error st => .error st
      | .ok st => .ok (st, processed ++ [editionId], true)

/-- Embedding of the article loop of `fetch_directus_articles`
(`scrapedirectus.py`): fold `_process_article` over the fetched articles
(each paired with its per-article environment), threading the store and
the dedup set, and recording per article whether it reached
`_process_image`. An uncaught exception aborts the loop. -/
def fetch_articles_loop (store : Store) (processed : List String) :
    List (Article × ArticleEnv) → Except Store (Store × List String × List (Article × Bool))
  | [] => .ok (store, processed, [])
  | (a, env) :: rest =>
      match process_article env store processed a with
      | .error st => .error st
      | .ok (st, pr, flag) =>
          match fetch_articles_loop st pr rest with
          | .error st2 => .error st2
          | .ok (st2, pr2, trace) => .ok (st2, pr2, (a, flag) :: trace)

/- ## The `sd2.py` upsert pipeline -/

/-- Environment of one sd2 date: a fault of the reconcile query, the set
of object uuids whose `delete_by_id` raises, the `_get_asset_url` result,
the download environment, the fresh store-assigned uuid the insert would
receive, and the insert fault flag. -/
structure Sd2Env where
  queryFault : Bool
  undeletable : List String
  assetUrl : Option String
  download : DownloadEnv
  freshId : String
  insertFault : Bool
  deriving DecidableEq

/-- Embedding of `DirectusManifestoScraper._delete_existing_copertine`
(`sd2.py`): fetch up to 10 objects whose `editionId` equals the key and
delete each by uuid. An individual failing delete is caught, logged as a
warning, and skipped; a failing query leaves the store unchanged. The
function never raises and reports nothing to its caller. -/
def delete_existing_copertine (env : Sd2Env) (store : Store) (editionId : String) : Store :=
  if env.queryFault then store
  else
    let found := (store.filter (fun o => o.properties.editionId == editionId)).take 10
    found.foldl (fun st o =>
      if env.undeletable.contains o.uuid then st
      else st.filter (fun x => x.uuid != o.uuid)) store

/-- The uuids that `_delete_existing_copertine` actually deletes: the
first ten matches of the edition id, minus the undeletable ones. -/
def sd2DeletedIds (env : Sd2Env) (store : Store) (editionId : String) : List String :=
  (((store.filter (fun o => o.properties.editionId == editionId)).take 10).filter
    (fun o => !env.undeletable.contains o.uuid)).map (fun o => o.uuid)

/-- Embedding of `_generate_image_filename` (`sd2.py`): date plus slugified
headline, with a `_no-headline` fallback; never `none` in the embedding
(the `except` branch guards exceptions that cannot occur here). -/
def sd2_generate_image_filename (a : Article) (date : PyDateTime) : Option String :=
  if !pyTruthy a.referenceHeadline then
    some ("il-manifesto_" ++ strftimeYMD date ++ "_no-headline")
  else
    some ("il-manifesto_" ++ strftimeYMD date ++ "_" ++ slugify (a.referenceHeadline.getD ""))

/-- Embedding of `_download_and_save_image` (`sd2.py`). -/
def sd2_download_and_save (env : Sd2Env) (a : Article) (date : PyDateTime) : Option String :=
  if !pyTruthy a.articleFeaturedImage then none
  else if !pyTruthy env.assetUrl then none
  else
    match sd2_generate_image_filename a date with
    | none => none
    | some base => sd2_download_image env.download base

/-- The properties dict built by `sd2._store_in_weaviate` from the
requested date (not the article's own timestamp) and the image filename. -/
def sd2CopertineDataOf (a : Article) (date : PyDateTime) (imageFilename : String) :
    CopertineData :=
  { testataName := "Il Manifesto"
    editionId := strftimeDMY date
    editionDateIsoStr := pyIsoformat date
    editionImageFnStr := imageFilename
    captionStr := a.referenceHeadline
    kickerStr := a.articleKicker }

/-- Embedding of `DirectusManifestoScraper._store_in_weaviate` (`sd2.py`):
`data.insert(properties=data)` with no caller-supplied uuid — the store
assigns the fresh id `env.freshId`. All exceptions are swallowed by the
blanket handler; the verification query afterwards only logs. -/
def sd2_store_in_weaviate (env : Sd2Env) (store : Store) (a : Article)
    (date : PyDateTime) (imageFilename : String) : Store :=
  if env.insertFault then store
  else store ++ [⟨env.freshId, sd2CopertineDataOf a date imageFilename⟩]

/-- Which branch of `_process_copertina` was taken. -/
inductive Sd2Outcome
  | invalid
  | downloadFailed
  | insertAttempted
  deriving DecidableEq

/-- Embedding of `DirectusManifestoScraper._process_copertina` (`sd2.py`):
validate, delete existing records for the edition id, download, then
insert. A failed download only logs an error — but the deletion has
already happened by then. A failed individual delete does not stop the
flow: the insert still runs. -/
def process_copertina (env : Sd2Env) (store : Store) (a : Article)
    (date : PyDateTime) : Store × Sd2Outcome :=
  if !validate_article a then (store, .invalid)
  else
    let editionId := strftimeDMY date
    let store1 := delete_existing_copertine env store editionId
    match sd2_download_and_save env a date with
    | some fn => (sd2_store_in_weaviate env store1 a date fn, .insertAttempted)
    | none => (store1, .downloadFailed)

/- ## Gap detector (`experiments/missingdates.py`) -/

/-- Proleptic Gregorian leap-year rule (Python `datetime`). -/
def isLeap (y : Nat) : Bool := (y % 4 == 0 && y % 100 != 0) || y % 400 == 0

/-- Days in a month. -/
def daysInMonth (y m : Nat) : Nat :=
  if m == 2 then (if isLeap y then 29 else 28)
  else if m == 4 || m == 6 || m == 9 || m == 11 then 30
  else 31

/-- Days in a year. -/
def daysInYear (y : Nat) : Nat := if isLeap y then 366 else 365

/-- Days before month `m` (1-based) in year `y`. -/
def daysBeforeMonth (y m : Nat) : Nat :=
  (List.range (m - 1)).foldl (fun acc i => acc + daysInMonth y (i + 1)) 0

/-- Rata-die day number of a calendar date (`0001-01-01` is day 1), as
Python `date.toordinal()`. `datetime.date` ordering, day stepping and
`isoweekday` all factor through this. -/
def toOrdinal (y m d : Nat) : Nat :=
  365 * (y - 1) + (y - 1) / 4 - (y - 1) / 100 + (y - 1) / 400 + daysBeforeMonth y m + d

/-- Python `date.isoweekday()`: Monday is 1, …, Sunday is 7; ordinal day 1
is a Monday. -/
def isoweekday (n : Nat) : Nat := (n - 1) % 7 + 1

/-- Year and 1-based day-of-year of an ordinal, peeling whole years
(`fuel` bounds the loop; callers pass the ordinal itself). -/
def fromOrdinalYear : Nat → Nat → Nat → Nat × Nat
  | 0, y, n => (y, n)
  | fuel + 1, y, n =>
      if n ≤ daysInYear y then (y, n) else fromOrdinalYear fuel (y + 1) (n - daysInYear y)

/-- Month and day-of-month of a 1-based day-of-year, peeling months. -/
def fromYearDay : Nat → Nat → Nat → Nat → Nat × Nat
  | 0, _, m, n => (m, n)
  | fuel + 1, y, m, n =>
      if n ≤ daysInMonth y m then (m, n) else fromYearDay fuel y (m + 1) (n - daysInMonth y m)

/-- Calendar `(year, month, day)` of an ordinal (inverse of `toOrdinal`). -/
def fromOrdinal (n : Nat) : Nat × Nat × Nat :=
  let yd := fromOrdinalYear n 1 n
  let md := fromYearDay 12 yd.1 1 yd.2
  (yd.1, md.1, md.2)

/-- Python `date.day` of an ordinal. -/
def ordinalDay (n : Nat) : Nat := (fromOrdinal n).2.2

/-- Python `date.month` of an ordinal. -/
def ordinalMonth (n : Nat) : Nat := (fromOrdinal n).2.1

/-- Digits-only string to number (helper of `pyInt`). -/
def natDigits (ds : List Char) : Option Nat :=
  if ds.isEmpty || !ds.all Char.isDigit then none
  else some (ds.foldl (fun acc c => acc * 10 + (c.toNat - 48)) 0)

/-- Python `int(s)` over ASCII strings: optional surrounding whitespace,
an optional sign, then at least one digit. -/
def pyInt (s : String) : Option Int :=
  let l := ((s.data.dropWhile isPySpace).reverse.dropWhile isPySpace).reverse
  match l with
  | '+' :: ds => (natDigits ds).map Int.ofNat
  | '-' :: ds => (natDigits ds).map (fun n => -(n : Int))
  | ds => (natDigits ds).map Int.ofNat

/-- The holiday-parsing loop of `find_missing_dates`: each `"DD/MM"` entry
becomes a `(day, month)` pair; a malformed entry (`ValueError` from the
split-unpack or `int`) is logged and skipped. -/
def parseIgnoredDates (l : List String) : List (Int × Int) :=
  l.foldl (fun acc s =>
    match pySplit s "/" with
    | [d, m] =>
        match pyInt d, pyInt m with
        | some dv, some mv => acc ++ [(dv, mv)]
        | _, _ => acc
    | _ => acc) []

/-- The per-day test of the walk: not the ignored weekday (Monday), not a
recurring `(day, month)` holiday, not already present. -/
def missingDay (ignored : List (Int × Int)) (existing : List Nat) (cur : Nat) : Bool :=
  isoweekday cur != 1 &&
    !ignored.contains ((ordinalDay cur : Int), (ordinalMonth cur : Int)) &&
    !existing.contains cur

/-- The `while current_date <= today` walk of `find_missing_dates`, with
fuel `today + 1 - oldest`. -/
def walkMissing (ignored : List (Int × Int)) (existing : List Nat) (today : Nat) :
    Nat → Nat → List Nat
  | _, 0 => []
  | cur, fuel + 1 =>
      if cur ≤ today then
        (if missingDay ignored existing cur then [cur] else []) ++
          walkMissing ignored existing today (cur + 1) fuel
      else []

/-- Embedding of `find_missing_dates(existing_dates, ignored_dates_str)`
(`experiments/missingdates.py`). Dates are ordinals; `today`
(`datetime.now().date()` in the source) is an explicit parameter. -/
def find_missing_dates (existing : List Nat) (ignoredStr : List String) (today : Nat) :
    List Nat :=
  if existing.isEmpty then []
  else
    let oldest := existing.foldl min (existing.headD 0)
    walkMissing (parseIgnoredDates ignoredStr) existing today oldest (today + 1 - oldest)

/- ## Filename date extraction (`includes/utils.py`) -/

/-- Python `str.zfill(width)`: left-pad with zeros, after a leading sign. -/
def pyZfill (width : Nat) (s : String) : String :=
  if width ≤ s.length then s
  else
    match s.data with
    | [] => String.mk (List.replicate width '0')
    | c :: rest =>
        if c == '+' || c == '-' then
          String.mk (c :: (List.replicate (width - s.length) '0' ++ rest))
        else String.mk (List.replicate (width - s.length) '0' ++ s.data)

/-- The Italian month map of `extract_date_from_filename`. -/
def monthMap : List (String × String) :=
  [("gennaio", "01"), ("febbraio", "02"), ("marzo", "03"), ("aprile", "04"),
   ("maggio", "05"), ("giugno", "06"), ("luglio", "07"), ("agosto", "08"),
   ("settembre", "09"), ("ottobre", "10"), ("novembre", "11"), ("dicembre", "12")]

/-- Dictionary lookup `month_map[name]` (`KeyError` becomes `none`). -/
def monthLookup (s : String) : Option String :=
  (monthMap.find? (fun p => p.1 == s)).map (fun p => p.2)

/-- Python `datetime(year, month, day, tzinfo=timezone.utc)`: validates
`1 ≤ year ≤ 9999`, `1 ≤ month ≤ 12`, `1 ≤ day ≤` days in the month,
raising `ValueError` otherwise (modelled as `none`, matching the caller's
blanket `except`). -/
def mkDatetimeUTC (year month day : Int) : Option PyDateTime :=
  if 1 ≤ year ∧ year ≤ 9999 ∧ 1 ≤ month ∧ month ≤ 12 ∧ 1 ≤ day ∧
      day ≤ (daysInMonth year.toNat month.toNat : Int) then
    some ⟨year.toNat, month.toNat, day.toNat, 0, 0, 0, true⟩
  else none

/-- Embedding of `extract_date_from_filename` (`includes/utils.py`). Each
failure path is an exception swallowed by the function's blanket `except`,
making the function total: index 1 of the `"_del_"` split exists only if
the separator occurs; the date part is what precedes `"_cover"`; it must
split into exactly three `_`-separated components; the month name must be
in the Italian month map; day (zero-filled to two digits, as the source
does before converting) and year must be integers; and the resulting
calendar date must be valid. -/
def extract_date_from_filename (filename : String) : Option PyDateTime :=
  match (pySplit filename "_del_").get? 1 with
  | none => none
  | some afterDel =>
    let datePart := (pySplit afterDel "_cover").headD ""
    match pySplit datePart "_" with
    | [dayS, monthS, yearS] =>
        match monthLookup (pyLower monthS) with
        | none => none
        | some monthNum =>
          match pyInt yearS, pyInt monthNum, pyInt (pyZfill 2 dayS) with
          | some y, some m, some d => mkDatetimeUTC y m d
          | _, _, _ => none
    | _ => none

set_option maxRecDepth 100000

/-- Sanity anchor for the SHA-1 embedding: the standard `"abc"` test vector. -/
theorem sha1_abc_vector :
    sha1 (strBytes "abc") =
      [0xa9, 0x99, 0x3e, 0x36, 0x47, 0x06, 0x81, 0x6a, 0xba, 0x3e,
       0x25, 0x71, 0x78, 0x50, 0xc2, 0x6c, 0x9c, 0xd0, 0xd8, 0x9d] := by decide

/-- Sanity anchor for the uuid5 embedding: value cross-checked against
CPython `uuid.uuid5` for the scraper's namespace and key `14-01-2024`. -/
theorem storeId_value_14_01_2024 :
    storeId "14-01-2024" = "f387258c-6109-5d38-9ec5-09fe167ac103" := by decide

/- ## Concrete fixtures for counterexamples and witnesses -/

/-- A valid sample article dated 2024-01-14 (business key `14-01-2024`). -/
def sampleArticle : Article :=
  { id := "a1", referenceHeadline := some "Titolo Uno",
    articleKicker := some "Kicker", articleFeaturedImage := some "img-1",
    datePublished := ⟨2024, 1, 14, 0, 0, 0, true⟩ }

/-- A valid sample article dated 2024-02-01 (business key `01-02-2024`). -/
def sampleArticleFeb : Article :=
  { id := "a2", referenceHeadline := some "Titolo Due",
    articleKicker := none, articleFeaturedImage := some "img-2",
    datePublished := ⟨2024, 2, 1, 0, 0, 0, true⟩ }

/-- Stale stored properties under business key `k`. -/
def staleData (k : String) : CopertineData :=
  { testataName := "Il Manifesto", editionId := k, editionDateIsoStr := "",
    editionImageFnStr := "old.jpg", captionStr := some "Vecchio", kickerStr := none }

/-- A download environment in which everything succeeds with a JPEG. -/
def okDownloadEnv : DownloadEnv :=
  { requestError := false, response := ⟨200, some "image/jpeg"⟩,
    guessedExt := some ".jpg", saveError := false }

/-- A download environment in which the GET raises `httpx.RequestError`. -/
def failDownloadEnv : DownloadEnv :=
  { requestError := true, response := ⟨200, some "image/jpeg"⟩,
    guessedExt := some ".jpg", saveError := false }

/-- An sd2 environment in which everything succeeds; the store assigns the
fresh id `fresh-1` to the uuid-less insert. -/
def okSd2Env : Sd2Env :=
  { queryFault := false, undeletable := [], assetUrl := some "https://assets/x",
    download := okDownloadEnv, freshId := "fresh-1", insertFault := false }

/-- The business key of an article: `strftime("%d-%m-%Y")` of its
publication date, as both scrapers compute `edition_id`. -/
def editionKey (a : Article) : String := strftimeDMY a.datePublished

/-- An article environment whose asset lookup fails (the article still
reaches `_process_image`, which then does nothing to the store). -/
def noopArticleEnv : ArticleEnv :=
  { assetUrl := none, download := okDownloadEnv, insertFault := false }

/- ## Claim theorems -/

/-- C1 (confirmed): the store identifier derivation is pure and
deterministic — `storeId` is a function of the business key alone, so
recomputing it for the same key yields the same value across calls, and
the example keys `14-01-2024` and `15-01-2024` derive different
identifiers. -/
theorem C1_store_id_deterministic :
    (∀ k : String, storeId k = storeId k) ∧
      storeId "14-01-2024" = storeId "14-01-2024" ∧
      storeId "14-01-2024" ≠ storeId "15-01-2024" :=
  ⟨fun _ => rfl, rfl, by decide⟩

/-- C6 counterexample: the source regex `[\s\W]+` leaves underscores
alone (`\W` excludes `_`), so the run consisting of the non-alphanumeric
character `_` is not collapsed to a hyphen, and the output contains
punctuation other than hyphens. -/
theorem C6_slugify_counterexample :
    slugify "a_b" = "a_b" ∧ slugify "a_b" ≠ "a-b" ∧
      '_' ∈ (slugify "a_b").data ∧ '_'.isAlphanum = false ∧ '_' ≠ '-' := by decide

/-- C9 counterexample: in `scrapedirectus.download_directus_image` a 200
response carrying no content-type header makes the download fail with
`None` instead of using the `.jpg` default and succeeding. -/
theorem C9_download_counterexample :
    download_directus_image ⟨false, ⟨200, none⟩, none, false⟩ "base" = .ok none ∧
      (Except.ok (some ("base" ++ ".jpg")) : Except Unit (Option String)) ≠ .ok none :=
  ⟨rfl, by simp⟩

/-- C9 amended: the extension is appended only after download and comes
from the response's content-type (via `mimetypes.guess_extension`,
modelled by `guessedExt`); an unrecognized content-type falls back to
`.jpg` in both implementations and the download still succeeds. A missing
(or empty) content-type header, however, falls back to `.jpg` only in
`sd2._download_image`; `scrapedirectus.download_directus_image` then
aborts and returns `None`. -/
theorem C9_download_amended (env : DownloadEnv) (base : String)
    (hre : env.requestError = false) (hst : env.response.statusCode = 200)
    (hsv : env.saveError = false) :
    (pyTruthy env.response.contentType = false →
        sd2_download_image env base = some (base ++ ".jpg") ∧
        download_directus_image env base = .ok none) ∧
    (pyTruthy env.response.contentType = true → env.guessedExt = none →
        sd2_download_image env base = some (base ++ ".jpg") ∧
        download_directus_image env base = .ok (some (pathWithSuffix base ".jpg"))) ∧
    (∀ e, pyTruthy env.response.contentType = true → env.guessedExt = some e →
        sd2_download_image env base = some (base ++ e) ∧
        download_directus_image env base = .ok (some (pathWithSuffix base e))) := by
  refine ⟨fun hct => ?_, fun hct hg => ?_, fun e hct hg => ?_⟩
  · simp [sd2_download_image, download_directus_image, hre, hst, hsv, hct]
  · simp [sd2_download_image, download_directus_image, hre, hst, hsv, hct, hg]
  · simp [sd2_download_image, download_directus_image, hre, hst, hsv, hct, hg]

/-- C9 witness: the amended theorem at a concrete environment (200
response, empty content-type). -/
theorem C9_download_witness :
    sd2_download_image ⟨false, ⟨200, none⟩, none, false⟩ "b" = some ("b" ++ ".jpg") ∧
      download_directus_image ⟨false, ⟨200, none⟩, none, false⟩ "b" = .ok none :=
  (C9_download_amended ⟨false, ⟨200, none⟩, none, false⟩ "b" rfl rfl rfl).1 (by decide)

/-- Helper: replace-by-id preserves the sequence of stored ids. -/
theorem weaviateReplace_map_uuid (st : Store) (u : String) (d : CopertineData) :
    (weaviateReplace st u d).map (fun o => o.uuid) = st.map (fun o => o.uuid) := by
  induction st with
  | nil => rfl
  | cons x xs ih =>
      simp only [weaviateReplace, List.map] at ih ⊢
      by_cases h : x.uuid == u
      · rw [if_pos h]
        exact congrArg₂ List.cons (eq_of_beq h).symm ih
      · rw [if_neg h]
        exact congrArg₂ List.cons rfl ih

/-- C5 (confirmed): when the insert under the derived id fails because
that identifier already exists, `store_in_weaviate` falls back to an
explicit replace-by-id with the same id and the same properties — the id
sequence of the store is unchanged, the object under the derived id now
carries exactly the new properties, and every other object is untouched;
any other insert failure is not handled by this fallback: it propagates
to the blanket handler, leaving the store unchanged with outcome
`failed`. -/
theorem C5_conflict_replace (store : Store) (a : Article) (fn : String)
    (hexist : store.any (fun o => o.uuid == storeId (strftimeDMY a.datePublished)) = true) :
    (store_in_weaviate false store a fn).2 = .replaced ∧
    (store_in_weaviate false store a fn).1.map (fun o => o.uuid) =
      store.map (fun o => o.uuid) ∧
    (∀ o ∈ (store_in_weaviate false store a fn).1,
        o.uuid = storeId (strftimeDMY a.datePublished) →
          o.properties = copertineDataOf a fn) ∧
    (∀ o ∈ (store_in_weaviate false store a fn).1,
        o.uuid ≠ storeId (strftimeDMY a.datePublished) → o ∈ store) ∧
    store_in_weaviate true store a fn = (store, .failed) := by
  have hsw : store_in_weaviate false store a fn =
      (weaviateReplace store (storeId (strftimeDMY a.datePublished))
        (copertineDataOf a fn), .replaced) := by
    unfold store_in_weaviate
    rw [if_neg Bool.false_ne_true, if_pos hexist]
  refine ⟨by rw [hsw], by rw [hsw]; exact weaviateReplace_map_uuid _ _ _, ?_, ?_,
    by unfold store_in_weaviate; rw [if_pos rfl]⟩
  · rw [hsw]
    intro o ho hou
    rcases List.mem_map.mp ho with ⟨x, _, hfx⟩
    by_cases h : x.uuid == storeId (strftimeDMY a.datePublished)
    · rw [if_pos h] at hfx
      rw [← hfx]
    · rw [if_neg h] at hfx
      rw [← hfx] at hou
      exact absurd (beq_iff_eq.mpr hou) h
  · rw [hsw]
    intro o ho hou
    rcases List.mem_map.mp ho with ⟨x, hx, hfx⟩
    by_cases h : x.uuid == storeId (strftimeDMY a.datePublished)
    · rw [if_pos h] at hfx
      rw [← hfx] at hou
      exact absurd rfl hou
    · rw [if_neg h] at hfx
      rw [← hfx]
      exact hx

/-- C5 witness: the fallback theorem applied at a concrete store seeded
under the derived id for business key `14-01-2024`. -/
theorem C5_conflict_replace_witness :
    (store_in_weaviate false [⟨storeId "14-01-2024", staleData "14-01-2024"⟩]
        sampleArticle "f.jpg").2 = .replaced :=
  (C5_conflict_replace [⟨storeId "14-01-2024", staleData "14-01-2024"⟩]
    sampleArticle "f.jpg" (by decide)).1

/-- Helper: the delete fold of the sd2 reconcile step only removes
objects. -/
theorem delete_foldl_mem (undel : List String) (found : List StoredObject) :
    ∀ (st : Store), ∀ o ∈ found.foldl (fun st o =>
        if undel.contains o.uuid then st
        else st.filter (fun x => x.uuid != o.uuid)) st, o ∈ st := by
  induction found with
  | nil => intro st o ho; simpa using ho
  | cons f rest ih =>
      intro st o ho
      simp only [List.foldl] at ho
      have hmem := ih _ o ho
      by_cases h : undel.contains f.uuid = true
      · rwa [if_pos h] at hmem
      · rw [if_neg h] at hmem
        exact List.mem_of_mem_filter hmem

/-- Helper: `_delete_existing_copertine` only removes objects — anything
left afterwards was already in the store. -/
theorem delete_existing_mem (env : Sd2Env) (store : Store) (k : String) :
    ∀ o ∈ delete_existing_copertine env store k, o ∈ store := by
  intro o ho
  unfold delete_existing_copertine at ho
  by_cases hq : env.queryFault = true
  · rwa [if_pos hq] at ho
  · rw [if_neg hq] at ho
    exact delete_foldl_mem env.undeletable _ store o ho

/-- C3 counterexample: in `sd2._process_copertina` the reconcile deletion
runs before the download, so forcing the download to fail does not leave
the store untouched — the pre-existing record for the edition has already
been deleted, i.e. a store write occurred for that edition even though
the download returned `None`. -/
theorem C3_asset_before_record_counterexample :
    sd2_download_and_save { okSd2Env with download := failDownloadEnv } sampleArticle
        sampleArticle.datePublished = none ∧
    process_copertina { okSd2Env with download := failDownloadEnv }
        [⟨"stale-1", staleData "14-01-2024"⟩] sampleArticle
        sampleArticle.datePublished = ([], .downloadFailed) ∧
    ([] : Store) ≠ [⟨"stale-1", staleData "14-01-2024"⟩] := by decide

/-- C3 amended: a record is inserted only on a confirmed downloaded
filename. In `scrapedirectus._process_image` a download that does not
confirm a saved filename leaves the store completely unchanged, and any
store change goes through `store_in_weaviate` with the confirmed
filename. In `sd2._process_copertina` a failed download means no record
is added — every object still in the store was already there — but the
store is not necessarily unchanged, because the reconcile deletion runs
before the download. -/
theorem C3_asset_before_record_amended :
    (∀ (env : ArticleEnv) (store : Store) (a : Article) (d : String),
       (∀ fn, download_directus_image env.download
           (transform_image_url_to_filename env.assetUrl a d) ≠ .ok (some fn)) →
         process_image env store a d = .ok store ∨
           process_image env store a d = .error store) ∧
    (∀ (env : ArticleEnv) (store : Store) (a : Article) (d : String) (st : Store),
       process_image env store a d = .ok st → st ≠ store →
         ∃ fn, download_directus_image env.download
             (transform_image_url_to_filename env.assetUrl a d) = .ok (some fn) ∧
           st = (store_in_weaviate env.insertFault store a fn).1) ∧
    (∀ (env : Sd2Env) (store : Store) (a : Article) (date : PyDateTime),
       sd2_download_and_save env a date = none →
         (process_copertina env store a date).2 ≠ .insertAttempted ∧
         ∀ o ∈ (process_copertina env store a date).1, o ∈ store) := by
  refine ⟨?_, ?_, ?_⟩
  · intro env store a d hfail
    unfold process_image
    by_cases hpt : (!pyTruthy env.assetUrl) = true
    · rw [if_pos hpt]
      exact .inl rfl
    · rw [if_neg hpt]
      by_cases hfn : (transform_image_url_to_filename env.assetUrl a d == "") = true
      · rw [if_pos hfn]
        exact .inl rfl
      · rw [if_neg hfn]
        rcases hdl : download_directus_image env.download
            (transform_image_url_to_filename env.assetUrl a d) with u | ov
        · cases u
          exact .inr rfl
        · cases ov with
          | none => exact .inl rfl
          | some fn => exact absurd hdl (hfail fn)
  · intro env store a d st hok hne
    unfold process_image at hok
    by_cases hpt : (!pyTruthy env.assetUrl) = true
    · rw [if_pos hpt] at hok
      exact absurd (Except.ok.inj hok).symm hne
    · rw [if_neg hpt] at hok
      by_cases hfn : (transform_image_url_to_filename env.assetUrl a d == "") = true
      · rw [if_pos hfn] at hok
        exact absurd (Except.ok.inj hok).symm hne
      · rw [if_neg hfn] at hok
        rcases hdl : download_directus_image env.download
            (transform_image_url_to_filename env.assetUrl a d) with u | ov
        · rw [hdl] at hok
          cases u
          exact absurd hok (by simp)
        · cases ov with
          | none =>
              rw [hdl] at hok
              exact absurd (Except.ok.inj hok).symm hne
          | some fn =>
              rw [hdl] at hok
              exact ⟨fn, rfl, (Except.ok.inj hok).symm⟩
  · intro env store a date hdl
    unfold process_copertina
    by_cases hv : (!validate_article a) = true
    · rw [if_pos hv]
      exact ⟨fun h => Sd2Outcome.noConfusion h, fun o ho => ho⟩
    · rw [if_neg hv]
      rw [hdl]
      exact ⟨fun h => Sd2Outcome.noConfusion h, fun o ho => delete_existing_mem env store _ o ho⟩

/-- C3 witness: the amended theorem applied at a concrete failing
download (no insert happens in the sd2 pipeline). -/
theorem C3_asset_before_record_witness :
    (process_copertina { okSd2Env with download := failDownloadEnv }
        [⟨"stale-1", staleData "14-01-2024"⟩] sampleArticle
        sampleArticle.datePublished).2 ≠ .insertAttempted :=
  (C3_asset_before_record_amended.2.2 _ _ _ _ (by decide)).1

/-- Helper: unfolding equation of the fetch loop when the head article
processes without an uncaught exception. -/
theorem fetch_loop_cons_ok (env : ArticleEnv) (a : Article) (store : Store)
    (processed : List String) (rest : List (Article × ArticleEnv)) (st2 : Store)
    (pr2 : List String) (flag : Bool)
    (hpa : process_article env store processed a = .ok (st2, pr2, flag)) :
    fetch_articles_loop store processed ((a, env) :: rest) =
      match fetch_articles_loop st2 pr2 rest with
      | .error st3 => .error st3
      | .ok (st3, pr3, tr) => .ok (st3, pr3, (a, flag) :: tr) := by
  conv_lhs => unfold fetch_articles_loop
  rw [hpa]

/-- Helper: unfolding equation of the fetch loop when the head article
raises an uncaught exception. -/
theorem fetch_loop_cons_err (env : ArticleEnv) (a : Article) (store : Store)
    (processed : List String) (rest : List (Article × ArticleEnv)) (st2 : Store)
    (hpa : process_article env store processed a = .error st2) :
    fetch_articles_loop store processed ((a, env) :: rest) = .error st2 := by
  conv_lhs => unfold fetch_articles_loop
  rw [hpa]

/-- Helper: full characterization of the dedup loop of
`fetch_directus_articles`. Starting from dedup set `processed`: the trace
pairs each fetched article, in order, with whether it reached
`_process_image`; the final dedup set extends the initial one by the keys
of exactly the flagged articles; the flagged keys are distinct and lie
outside the initial set; and an article is flagged iff it is valid, its
key is outside the initial set, and no earlier flagged article in the
trace carries the same key. -/
theorem fetch_loop_trace (l : List (Article × ArticleEnv)) :
    ∀ (store : Store) (processed : List String) (st : Store) (pr : List String)
      (trace : List (Article × Bool)),
      fetch_articles_loop store processed l = .ok (st, pr, trace) →
        trace.map Prod.fst = l.map Prod.fst ∧
        pr = processed ++ (trace.filter (fun p => p.2)).map (fun p => editionKey p.1) ∧
        ((trace.filter (fun p => p.2)).map (fun p => editionKey p.1)).Nodup ∧
        (∀ k ∈ (trace.filter (fun p => p.2)).map (fun p => editionKey p.1),
          k ∉ processed) ∧
        (∀ pre p post, trace = pre ++ p :: post →
          (p.2 = true ↔ validate_article p.1 = true ∧ editionKey p.1 ∉ processed ∧
            ∀ q ∈ pre, q.2 = true → editionKey q.1 ≠ editionKey p.1)) := by
  induction l with
  | nil =>
      intro store processed st pr trace h
      simp only [fetch_articles_loop, Except.ok.injEq, Prod.mk.injEq] at h
      obtain ⟨h1, h2, h3⟩ := h
      subst h3
      subst h2
      exact ⟨rfl, by simp, by simp, by simp, fun pre p post hs => by simp at hs⟩
  | cons ae rest ih =>
      obtain ⟨a, env⟩ := ae
      intro store processed st pr trace h
      by_cases hv : (!validate_article a) = true
      · have hpa : process_article env store processed a = .ok (store, processed, false) := by
          unfold process_article
          rw [if_pos hv]
        rw [fetch_loop_cons_ok env a store processed rest _ _ _ hpa] at h
        rcases hrec : fetch_articles_loop store processed rest with st' | r
        · rw [hrec] at h
          simp at h
        · obtain ⟨st2, pr2, tr⟩ := r
          rw [hrec] at h
          simp only [Except.ok.injEq, Prod.mk.injEq] at h
          obtain ⟨h1, h2, h3⟩ := h
          subst h3
          subst h2
          subst h1
          obtain ⟨i1, i2, i3, i4, i5⟩ := ih store processed _ _ _ hrec
          have hflt : ((a, false) :: tr).filter (fun p => p.2) = tr.filter (fun p => p.2) := by
            simp [List.filter_cons]
          refine ⟨by simp [i1], by rw [hflt]; exact i2, by rw [hflt]; exact i3,
            by rw [hflt]; exact i4, ?_⟩
          intro pre p post hs
          cases pre with
          | nil =>
              simp only [List.nil_append, List.cons.injEq] at hs
              obtain ⟨hp, -⟩ := hs
              subst hp
              simp only [List.not_mem_nil]
              constructor
              · intro hfalse
                exact absurd hfalse (by simp)
              · rintro ⟨hval, -⟩
                rw [hval] at hv
                exact absurd hv (by simp)
          | cons q pre' =>
              simp only [List.cons_append, List.cons.injEq] at hs
              obtain ⟨hq, htr⟩ := hs
              subst hq
              rw [i5 pre' p post htr]
              constructor
              · rintro ⟨hval, hnp, hpre⟩
                refine ⟨hval, hnp, fun r hr hr2 => ?_⟩
                rcases List.mem_cons.mp hr with hrq | hrp
                · rw [hrq] at hr2
                  exact absurd hr2 (by simp)
                · exact hpre r hrp hr2
              · rintro ⟨hval, hnp, hpre⟩
                exact ⟨hval, hnp, fun r hr hr2 => hpre r (List.mem_cons_of_mem _ hr) hr2⟩
      · by_cases hc : processed.contains (strftimeDMY a.datePublished) = true
        · have hpa : process_article env store processed a = .ok (store, processed, false) := by
            unfold process_article
            simp only []
            rw [if_neg hv, if_pos hc]
          rw [fetch_loop_cons_ok env a store processed rest _ _ _ hpa] at h
          rcases hrec : fetch_articles_loop store processed rest with st' | r
          · rw [hrec] at h
            simp at h
          · obtain ⟨st2, pr2, tr⟩ := r
            rw [hrec] at h
            simp only [Except.ok.injEq, Prod.mk.injEq] at h
            obtain ⟨h1, h2, h3⟩ := h
            subst h3
            subst h2
            subst h1
            obtain ⟨i1, i2, i3, i4, i5⟩ := ih store processed _ _ _ hrec
            have hflt : ((a, false) :: tr).filter (fun p => p.2) = tr.filter (fun p => p.2) := by
              simp [List.filter_cons]
            refine ⟨by simp [i1], by rw [hflt]; exact i2, by rw [hflt]; exact i3,
              by rw [hflt]; exact i4, ?_⟩
            intro pre p post hs
            cases pre with
            | nil =>
                simp only [List.nil_append, List.cons.injEq] at hs
                obtain ⟨hp, -⟩ := hs
                subst hp
                constructor
                · intro hfalse
                  exact absurd hfalse (by simp)
                · rintro ⟨-, hnp, -⟩
                  exact absurd (List.mem_of_elem_eq_true hc) hnp
            | cons q pre' =>
                simp only [List.cons_append, List.cons.injEq] at hs
                obtain ⟨hq, htr⟩ := hs
                subst hq
                rw [i5 pre' p post htr]
                constructor
                · rintro ⟨hval, hnp, hpre⟩
                  refine ⟨hval, hnp, fun r hr hr2 => ?_⟩
                  rcases List.mem_cons.mp hr with hrq | hrp
                  · rw [hrq] at hr2
                    exact absurd hr2 (by simp)
                  · exact hpre r hrp hr2
                · rintro ⟨hval, hnp, hpre⟩
                  exact ⟨hval, hnp, fun r hr hr2 => hpre r (List.mem_cons_of_mem _ hr) hr2⟩
        · rcases hpi : process_image env store a (strftimeYMD a.datePublished) with st2 | st2
          · have hpa : process_article env store processed a = .error st2 := by
              unfold process_article
              simp only []
              rw [if_neg hv, if_neg hc, hpi]
            rw [fetch_loop_cons_err env a store processed rest _ hpa] at h
            simp at h
          · have hpa : process_article env store processed a =
                .ok (st2, processed ++ [editionKey a], true) := by
              unfold process_article
              simp only []
              rw [if_neg hv, if_neg hc, hpi]
              exact rfl
            rw [fetch_loop_cons_ok env a store processed rest _ _ _ hpa] at h
            rcases hrec : fetch_articles_loop st2 (processed ++ [editionKey a]) rest with st' | r
            · rw [hrec] at h
              simp at h
            · obtain ⟨st3, pr2, tr⟩ := r
              rw [hrec] at h
              simp only [Except.ok.injEq, Prod.mk.injEq] at h
              obtain ⟨h1, h2, h3⟩ := h
              subst h3
              subst h2
              subst h1
              obtain ⟨i1, i2, i3, i4, i5⟩ := ih st2 (processed ++ [editionKey a]) _ _ _ hrec
              have hflt : ((a, true) :: tr).filter (fun p => p.2) =
                  (a, true) :: tr.filter (fun p => p.2) := by
                simp [List.filter_cons]
              have hka : editionKey a ∉ processed := fun hm =>
                absurd (List.elem_eq_true_of_mem hm) (by simpa using hc)
              refine ⟨by simp [i1], ?_, ?_, ?_, ?_⟩
              · rw [hflt]
                simp only [List.map_cons]
                rw [i2]
                simp
              · rw [hflt]
                simp only [List.map_cons, List.nodup_cons]
                refine ⟨fun hmem => ?_, i3⟩
                have := i4 _ hmem
                simp at this
              · rw [hflt]
                simp only [List.map_cons]
                intro k hk
                rcases List.mem_cons.mp hk with hk1 | hk2
                · rw [hk1]
                  exact hka
                · have := i4 k hk2
                  simp only [List.mem_append, not_or] at this
                  exact this.1
              · intro pre p post hs
                cases pre with
                | nil =>
                    simp only [List.nil_append, List.cons.injEq] at hs
                    obtain ⟨hp, -⟩ := hs
                    subst hp
                    simp only [true_iff]
                    refine ⟨by simpa using hv, hka, by simp⟩
                | cons q pre' =>
                    simp only [List.cons_append, List.cons.injEq] at hs
                    obtain ⟨hq, htr⟩ := hs
                    subst hq
                    rw [i5 pre' p post htr]
                    simp only [List.mem_append, List.mem_singleton, not_or]
                    constructor
                    · rintro ⟨hval, ⟨hnp, hnk⟩, hpre⟩
                      refine ⟨hval, hnp, fun r hr hr2 => ?_⟩
                      rcases List.mem_cons.mp hr with hrq | hrp
                      · rw [hrq]
                        intro hkey
                        exact hnk hkey.symm
                      · exact hpre r hrp hr2
                    · rintro ⟨hval, hnp, hpre⟩
                      refine ⟨hval, ⟨hnp, ?_⟩, fun r hr hr2 =>
                        hpre r (List.mem_cons_of_mem _ hr) hr2⟩
                      intro hkey
                      exact hpre (a, true) (List.mem_cons_self _ _) rfl hkey.symm

/-- C8 (confirmed): within a single CMS fetch, the trace of the article
loop covers every fetched article in order; the business keys of the
articles that reach `_process_image` are pairwise distinct (at most one
edition per key reaches the upsert step); and an article reaches
`_process_image` exactly when it is valid and no earlier processed
article of the fetch carried the same key — so among several valid
records with one key, only the first encountered is processed further. -/
theorem C8_fetch_dedup (l : List (Article × ArticleEnv)) (store st : Store)
    (pr : List String) (trace : List (Article × Bool))
    (h : fetch_articles_loop store [] l = .ok (st, pr, trace)) :
    trace.map Prod.fst = l.map Prod.fst ∧
    ((trace.filter (fun p => p.2)).map (fun p => editionKey p.1)).Nodup ∧
    (∀ pre p post, trace = pre ++ p :: post →
      (p.2 = true ↔ validate_article p.1 = true ∧
        ∀ q ∈ pre, q.2 = true → editionKey q.1 ≠ editionKey p.1)) := by
  obtain ⟨h1, -, h3, -, h5⟩ := fetch_loop_trace l store [] st pr trace h
  refine ⟨h1, h3, fun pre p post hs => ?_⟩
  rw [h5 pre p post hs]
  simp

/-- C8 witness: the dedup theorem applied to a concrete fetch of two
valid articles sharing the key `14-01-2024` — only the first is flagged. -/
theorem C8_fetch_dedup_witness :
    (([(sampleArticle, true), ({ sampleArticle with id := "a9" }, false)].filter
        (fun p => p.2)).map (fun p => editionKey p.1)).Nodup :=
  (C8_fetch_dedup
    [(sampleArticle, noopArticleEnv), ({ sampleArticle with id := "a9" }, noopArticleEnv)]
    [] [] ["14-01-2024"]
    [(sampleArticle, true), ({ sampleArticle with id := "a9" }, false)]
    (by rfl)).2.1

/-- Helper: the delete fold removes exactly the objects whose uuid is the
uuid of some found, deletable object. -/
theorem delete_foldl_eq_filter (undel : List String) :
    ∀ (found : List StoredObject) (st : Store),
      found.foldl (fun st o =>
        if undel.contains o.uuid then st
        else st.filter (fun x => x.uuid != o.uuid)) st =
      st.filter (fun x =>
        !(((found.filter (fun o => !undel.contains o.uuid)).map
            (fun o => o.uuid)).contains x.uuid)) := by
  intro found
  induction found with
  | nil =>
      intro st
      simp
  | cons f rest ih =>
      intro st
      simp only [List.foldl, List.filter_cons]
      by_cases h : undel.contains f.uuid = true
      · rw [if_pos h]
        rw [ih st]
        have hnf : (!undel.contains f.uuid) = false := by
          rw [h]
          rfl
        rw [hnf]
        simp only [Bool.false_eq_true, if_false]
      · rw [if_neg h]
        rw [ih]
        rw [List.filter_filter]
        have hcf : undel.contains f.uuid = false := by
          cases hb : undel.contains f.uuid with
          | true => exact absurd hb h
          | false => rfl
        have hnt : (!undel.contains f.uuid) = true := by
          rw [hcf]
          rfl
        rw [hnt, if_pos rfl]
        have hpred : ∀ x : StoredObject,
            ((!((rest.filter (fun o => !undel.contains o.uuid)).map
                (fun o => o.uuid)).contains x.uuid) && (x.uuid != f.uuid)) =
            (!((f :: rest.filter (fun o => !undel.contains o.uuid)).map
                (fun o => o.uuid)).contains x.uuid) := by
          intro x
          simp only [List.map_cons, List.contains_cons, Bool.not_or]
          rw [Bool.and_comm]
          rfl
        exact List.filter_congr (fun x _ => hpred x)

/-- Helper: on a successful query, `_delete_existing_copertine` equals a
filter removing exactly the found, deletable uuids. -/
theorem delete_existing_eq_filter (env : Sd2Env) (store : Store) (k : String)
    (hq : env.queryFault = false) :
    delete_existing_copertine env store k =
      store.filter (fun x => !((sd2DeletedIds env store k).contains x.uuid)) := by
  unfold delete_existing_copertine sd2DeletedIds
  rw [if_neg (by simp [hq])]
  exact delete_foldl_eq_filter env.undeletable _ store

/-- Helper: the success path of `_process_copertina` — valid article,
working query, confirmed download, working insert — deletes the found,
deletable uuids and appends the new record under the fresh id. -/
theorem process_copertina_success (env : Sd2Env) (store : Store) (a : Article)
    (date : PyDateTime) (fn : String)
    (hv : validate_article a = true)
    (hq : env.queryFault = false)
    (hdl : sd2_download_and_save env a date = some fn)
    (hins : env.insertFault = false) :
    process_copertina env store a date =
      (store.filter (fun x =>
          !((sd2DeletedIds env store (strftimeDMY date)).contains x.uuid)) ++
        [⟨env.freshId, sd2CopertineDataOf a date fn⟩], .insertAttempted) := by
  have hstep : process_copertina env store a date =
      (sd2_store_in_weaviate env
        (delete_existing_copertine env store (strftimeDMY date)) a date fn,
       .insertAttempted) := by
    unfold process_copertina
    rw [if_neg (by simp [hv]), hdl]
  rw [hstep, delete_existing_eq_filter env store (strftimeDMY date) hq]
  unfold sd2_store_in_weaviate
  rw [if_neg (by simp [hins])]

/-- C4 counterexample: with a stale record whose delete fails (uuid
`stale-1` is undeletable), `_process_copertina` does not abort — the
warning is logged, the download proceeds, and the insert is performed
alongside the un-deletable stale record, reported as a normal insert. -/
theorem C4_delete_failure_counterexample :
    process_copertina { okSd2Env with undeletable := ["stale-1"] }
        [⟨"stale-1", staleData "14-01-2024"⟩] sampleArticle sampleArticle.datePublished =
      ([⟨"stale-1", staleData "14-01-2024"⟩,
        ⟨"fresh-1", sd2CopertineDataOf sampleArticle sampleArticle.datePublished
          "il-manifesto_2024-01-14_titolo-uno.jpg"⟩], .insertAttempted) := by
  decide

/-- C4 amended: on a valid article with a working query and download,
every found record whose delete succeeds is removed by its store-native
id before the write — the final store is exactly the original minus the
found, deletable uuids, plus the new record — but an individual delete
failure does not abort the upsert: records whose uuid is undeletable
remain in the store while the insert is still performed alongside them. -/
theorem C4_reconcile_amended (env : Sd2Env) (store : Store) (a : Article)
    (date : PyDateTime) (fn : String)
    (hv : validate_article a = true)
    (hq : env.queryFault = false)
    (hdl : sd2_download_and_save env a date = some fn)
    (hins : env.insertFault = false) :
    process_copertina env store a date =
      (store.filter (fun x =>
          !((sd2DeletedIds env store (strftimeDMY date)).contains x.uuid)) ++
        [⟨env.freshId, sd2CopertineDataOf a date fn⟩], .insertAttempted) ∧
    (∀ o ∈ store, o.uuid ∈ env.undeletable →
      o ∈ (process_copertina env store a date).1) := by
  have hmain := process_copertina_success env store a date fn hv hq hdl hins
  refine ⟨hmain, fun o ho hou => ?_⟩
  rw [hmain]
  simp only [List.mem_append]
  left
  rw [List.mem_filter]
  refine ⟨ho, ?_⟩
  have hcon : (sd2DeletedIds env store (strftimeDMY date)).contains o.uuid = false := by
    cases hb : (sd2DeletedIds env store (strftimeDMY date)).contains o.uuid with
    | false => rfl
    | true =>
        have hmem := List.mem_of_elem_eq_true hb
        unfold sd2DeletedIds at hmem
        rcases List.mem_map.mp hmem with ⟨o2, ho2, huu⟩
        rcases List.mem_filter.mp ho2 with ⟨-, hdel⟩
        rw [huu] at hdel
        have hct : env.undeletable.contains o.uuid = true := List.elem_eq_true_of_mem hou
        rw [hct] at hdel
        exact absurd hdel (by simp)
  rw [hcon]
  rfl

/-- C4 witness: the amended theorem at a concrete store whose single
stale record is un-deletable — the stale record survives the upsert. -/
theorem C4_reconcile_witness :
    (⟨"stale-1", staleData "14-01-2024"⟩ : StoredObject) ∈
      (process_copertina { okSd2Env with undeletable := ["stale-1"] }
        [⟨"stale-1", staleData "14-01-2024"⟩] sampleArticle
        sampleArticle.datePublished).1 :=
  (C4_reconcile_amended { okSd2Env with undeletable := ["stale-1"] }
    [⟨"stale-1", staleData "14-01-2024"⟩] sampleArticle sampleArticle.datePublished
    "il-manifesto_2024-01-14_titolo-uno.jpg" (by decide) rfl (by rfl) rfl).2
    ⟨"stale-1", staleData "14-01-2024"⟩ (by decide) (by decide)

/-- C2 counterexample: a store pre-seeded with two stale records under
business key `01-02-2024`; after one completed sd2 upsert exactly one
record remains, but its id is the store-assigned fresh id `fresh-1`, not
the deterministically derived `storeId "01-02-2024"` — sd2's insert
passes no uuid. -/
theorem C2_upsert_counterexample :
    process_copertina okSd2Env
        [⟨"stale-a", staleData "01-02-2024"⟩, ⟨"stale-b", staleData "01-02-2024"⟩]
        sampleArticleFeb sampleArticleFeb.datePublished =
      ([⟨"fresh-1", sd2CopertineDataOf sampleArticleFeb sampleArticleFeb.datePublished
          "il-manifesto_2024-02-01_titolo-due.jpg"⟩], .insertAttempted) ∧
    "fresh-1" ≠ storeId "01-02-2024" := by
  decide

/-- C2 amended: after one completed sd2 upsert for business key `k`
(valid article, working query / download / insert, at most ten stale
records, all deletes succeeding) exactly one record with `editionId = k`
remains — but it sits under the store-assigned fresh id, not the derived
id. In the scrapedirectus upsert the write targets the derived id, but
pre-seeded records with `editionId = k` under other store ids are not
deleted and remain in the store. -/
theorem C2_upsert_amended (env : Sd2Env) (store : Store) (a : Article)
    (date : PyDateTime) (fn : String)
    (hv : validate_article a = true) (hq : env.queryFault = false)
    (hdl : sd2_download_and_save env a date = some fn)
    (hins : env.insertFault = false)
    (hlen : (store.filter
        (fun o => o.properties.editionId == strftimeDMY date)).length ≤ 10)
    (hdelok : ∀ o ∈ store, o.uuid ∉ env.undeletable) :
    (process_copertina env store a date).1.filter
        (fun o => o.properties.editionId == strftimeDMY date) =
      [⟨env.freshId, sd2CopertineDataOf a date fn⟩] ∧
    (∀ (store2 : Store) (a2 : Article) (fn2 : String) (o : StoredObject),
      o ∈ store2 → o.uuid ≠ storeId (strftimeDMY a2.datePublished) →
        o ∈ (store_in_weaviate false store2 a2 fn2).1) := by
  constructor
  · rw [process_copertina_success env store a date fn hv hq hdl hins]
    simp only [List.filter_append]
    have h1 : (store.filter (fun x =>
        !((sd2DeletedIds env store (strftimeDMY date)).contains x.uuid))).filter
          (fun o => o.properties.editionId == strftimeDMY date) = [] := by
      rw [List.filter_eq_nil_iff]
      intro o ho hoe
      rcases List.mem_filter.mp ho with ⟨hos, hnd⟩
      have hmm : o ∈ (store.filter
          (fun o => o.properties.editionId == strftimeDMY date)).take 10 := by
        rw [List.take_of_length_le hlen]
        exact List.mem_filter.mpr ⟨hos, hoe⟩
      have hdel : o ∈ ((store.filter
          (fun o => o.properties.editionId == strftimeDMY date)).take 10).filter
            (fun o => !env.undeletable.contains o.uuid) := by
        refine List.mem_filter.mpr ⟨hmm, ?_⟩
        have hcf : env.undeletable.contains o.uuid = false := by
          cases hb : env.undeletable.contains o.uuid with
          | false => rfl
          | true => exact absurd (List.mem_of_elem_eq_true hb) (hdelok o hos)
        rw [hcf]
        rfl
      have huid : o.uuid ∈ sd2DeletedIds env store (strftimeDMY date) :=
        List.mem_map.mpr ⟨o, hdel, rfl⟩
      have hct : (sd2DeletedIds env store (strftimeDMY date)).contains o.uuid = true :=
        List.elem_eq_true_of_mem huid
      rw [hct] at hnd
      exact absurd hnd (by simp)
    rw [h1]
    simp only [List.nil_append, List.filter_cons]
    have hed : ((⟨env.freshId, sd2CopertineDataOf a date fn⟩ :
        StoredObject).properties.editionId == strftimeDMY date) = true := by
      simp [sd2CopertineDataOf]
    rw [hed, if_pos rfl]
    rfl
  · intro store2 a2 fn2 o ho hne
    unfold store_in_weaviate
    rw [if_neg Bool.false_ne_true]
    by_cases hex : store2.any
        (fun x => x.uuid == storeId (strftimeDMY a2.datePublished)) = true
    · rw [if_pos hex]
      simp only [weaviateReplace]
      refine List.mem_map.mpr ⟨o, ho, ?_⟩
      have hb : (o.uuid == storeId (strftimeDMY a2.datePublished)) = false := by
        cases hb2 : o.uuid == storeId (strftimeDMY a2.datePublished) with
        | false => rfl
        | true => exact absurd (eq_of_beq hb2) hne
      rw [if_neg (by simp [hb])]
    · rw [if_neg hex]
      exact List.mem_append_left _ ho

/-- C2 witness: the amended theorem at the pre-seeded two-stale-records
store — the single surviving record for key `01-02-2024`. -/
theorem C2_upsert_witness :
    (process_copertina okSd2Env
        [⟨"stale-a", staleData "01-02-2024"⟩, ⟨"stale-b", staleData "01-02-2024"⟩]
        sampleArticleFeb sampleArticleFeb.datePublished).1.filter
      (fun o => o.properties.editionId == strftimeDMY sampleArticleFeb.datePublished) =
      [⟨"fresh-1", sd2CopertineDataOf sampleArticleFeb sampleArticleFeb.datePublished
          "il-manifesto_2024-02-01_titolo-due.jpg"⟩] :=
  (C2_upsert_amended okSd2Env
    [⟨"stale-a", staleData "01-02-2024"⟩, ⟨"stale-b", staleData "01-02-2024"⟩]
    sampleArticleFeb sampleArticleFeb.datePublished
    "il-manifesto_2024-02-01_titolo-due.jpg"
    (by decide) rfl (by rfl) rfl (by decide) (by decide)).1

/-- Helper: every character `collapseSeps` emits is a hyphen or a
non-separator character of the input. -/
theorem collapseSeps_mem (l : List Char) :
    ∀ (b : Bool), ∀ c ∈ collapseSeps b l, c = '-' ∨ (c ∈ l ∧ isSlugSep c = false) := by
  induction l with
  | nil =>
      intro b c hc
      simp [collapseSeps] at hc
  | cons x xs ih =>
      intro b c hc
      unfold collapseSeps at hc
      by_cases hx : isSlugSep x = true
      · rw [if_pos hx] at hc
        cases b with
        | true =>
            rw [if_pos rfl] at hc
            rcases ih true c hc with h | ⟨hm, hs⟩
            · exact .inl h
            · exact .inr ⟨List.mem_cons_of_mem x hm, hs⟩
        | false =>
            rw [if_neg (by simp)] at hc
            rcases List.mem_cons.mp hc with h | h
            · exact .inl h
            · rcases ih true c h with h2 | ⟨hm, hs⟩
              · exact .inl h2
              · exact .inr ⟨List.mem_cons_of_mem x hm, hs⟩
      · rw [if_neg hx] at hc
        rcases List.mem_cons.mp hc with h | h
        · rw [h]
          refine .inr ⟨List.mem_cons_self x xs, ?_⟩
          cases hb : isSlugSep x with
          | false => rfl
          | true => exact absurd hb hx
        · rcases ih false c h with h2 | ⟨hm, hs⟩
          · exact .inl h2
          · exact .inr ⟨List.mem_cons_of_mem x hm, hs⟩

/-- Helper: the first survivor of `dropWhile` fails the predicate. -/
theorem dropWhile_head_not (p : Char → Bool) (l : List Char) :
    ∀ c, (l.dropWhile p).head? = some c → p c = false := by
  induction l with
  | nil =>
      intro c hc
      simp [List.dropWhile] at hc
  | cons x xs ih =>
      intro c hc
      rw [List.dropWhile_cons] at hc
      by_cases hx : p x = true
      · rw [if_pos hx] at hc
        exact ih c hc
      · rw [if_neg hx] at hc
        have hxc : x = c := by simpa using hc
        rw [← hxc]
        cases hb : p x with
        | false => rfl
        | true => exact absurd hb hx

/-- Helper: a run in progress never emits a leading hyphen. -/
theorem collapseSeps_true_head (l : List Char) :
    ∀ c, (collapseSeps true l).head? = some c → c ≠ '-' := by
  induction l with
  | nil =>
      intro c hc
      simp [collapseSeps] at hc
  | cons x xs ih =>
      intro c hc
      unfold collapseSeps at hc
      by_cases hx : isSlugSep x = true
      · rw [if_pos hx, if_pos rfl] at hc
        exact ih c hc
      · rw [if_neg hx] at hc
        have hxc : x = c := by simpa using hc
        intro hcd
        apply hx
        rw [hxc, hcd]
        decide

/-- Helper: the collapsed output never has two adjacent hyphens. -/
theorem collapseSeps_chain (l : List Char) :
    ∀ b, List.Chain' (fun a c => ¬(a = '-' ∧ c = '-')) (collapseSeps b l) := by
  induction l with
  | nil =>
      intro b
      simp [collapseSeps]
  | cons x xs ih =>
      intro b
      unfold collapseSeps
      by_cases hx : isSlugSep x = true
      · rw [if_pos hx]
        cases b with
        | true =>
            rw [if_pos rfl]
            exact ih true
        | false =>
            rw [if_neg (by simp)]
            rw [List.chain'_cons']
            refine ⟨fun y hy => ?_, ih true⟩
            rintro ⟨-, hy'⟩
            exact collapseSeps_true_head xs y hy hy'
      · rw [if_neg hx]
        rw [List.chain'_cons']
        refine ⟨fun y hy => ?_, ih false⟩
        rintro ⟨hx', -⟩
        rw [hx'] at hx
        exact hx (by decide)

/-- Helper: stripping only removes characters. -/
theorem stripHyphens_mem (l : List Char) : ∀ c ∈ stripHyphens l, c ∈ l := by
  intro c hc
  unfold stripHyphens at hc
  rw [List.mem_reverse] at hc
  have h2 : c ∈ (l.dropWhile (· == '-')).reverse := (List.dropWhile_sublist _).subset hc
  rw [List.mem_reverse] at h2
  exact (List.dropWhile_sublist _).subset h2

/-- Helper: a nonempty suffix shares the last element. -/
theorem suffix_getLast? {l1 l2 : List Char} (h : l1 <:+ l2) :
    ∀ c, l1.getLast? = some c → l2.getLast? = some c := by
  rcases h with ⟨t, ht⟩
  subst ht
  intro c hc
  rw [List.getLast?_append, hc]
  rfl

/-- C6 amended: slugify lowercases and collapses runs of whitespace and
non-word characters to single hyphens — but `\W` spares the underscore,
so underscores survive. For every input: the example slug is as the spec
says; every output character is a word character (letter, digit, or
underscore) or a hyphen and never whitespace; no two hyphens are
adjacent; and the output neither starts nor ends with a hyphen. -/
theorem C6_slugify_amended :
    slugify "Crisi: il governo cade!" = "crisi-il-governo-cade" ∧
    (∀ (s : String), ∀ c ∈ (slugify s).data,
      (isPyWordChar c = true ∨ c = '-') ∧ isPySpace c = false) ∧
    (∀ s : String, List.Chain' (fun a c => ¬(a = '-' ∧ c = '-')) (slugify s).data) ∧
    (∀ s : String, ∀ c, (slugify s).data.head? = some c → c ≠ '-') ∧
    (∀ s : String, ∀ c, (slugify s).data.getLast? = some c → c ≠ '-') := by
  refine ⟨by decide, ?_, ?_, ?_, ?_⟩
  · intro s c hc
    have hc' : c ∈ stripHyphens (collapseSeps false (pyLower s).data) := hc
    have hm := stripHyphens_mem _ c hc'
    rcases collapseSeps_mem _ false c hm with h | ⟨-, hs⟩
    · subst h
      exact ⟨.inr rfl, by decide⟩
    · unfold isSlugSep at hs
      rcases Bool.or_eq_false_iff.mp hs with ⟨h1, h2⟩
      have hw : isPyWordChar c = true := by
        cases hwb : isPyWordChar c with
        | true => rfl
        | false =>
            rw [hwb] at h2
            exact absurd h2 (by decide)
      exact ⟨.inl hw, h1⟩
  · intro s
    show List.Chain' _ (stripHyphens (collapseSeps false (pyLower s).data))
    unfold stripHyphens
    refine List.chain'_reverse.mpr ?_
    refine List.Chain'.suffix ?_ (List.dropWhile_suffix _)
    refine List.chain'_reverse.mpr ?_
    exact (collapseSeps_chain (pyLower s).data false).suffix (List.dropWhile_suffix _)
  · intro s c hc
    have hc' : ((((collapseSeps false (pyLower s).data).dropWhile
        (· == '-')).reverse.dropWhile (· == '-')).reverse).head? = some c := hc
    rw [List.head?_reverse] at hc'
    have h2 := suffix_getLast? (List.dropWhile_suffix _) c hc'
    rw [List.getLast?_reverse] at h2
    have h3 := dropWhile_head_not (· == '-') _ c h2
    intro hcd
    rw [hcd] at h3
    exact absurd h3 (by decide)
  · intro s c hc
    have hc' : ((((collapseSeps false (pyLower s).data).dropWhile
        (· == '-')).reverse.dropWhile (· == '-')).reverse).getLast? = some c := hc
    rw [List.getLast?_reverse] at hc'
    have h3 := dropWhile_head_not (· == '-') _ c hc'
    intro hcd
    rw [hcd] at h3
    exact absurd h3 (by decide)

/-- C6 witness: the amended character-class property at a concrete input. -/
theorem C6_slugify_witness :
    (isPyWordChar 'x' = true ∨ 'x' = '-') ∧ isPySpace 'x' = false :=
  C6_slugify_amended.2.1 "x y" 'x' (by decide)

/-- Helper: the fueled walk enumerates exactly the passing days of the
inclusive range when the fuel spans it. -/
theorem walkMissing_eq_filter (ignored : List (Int × Int)) (existing : List Nat)
    (today : Nat) :
    ∀ (fuel cur : Nat), cur + fuel = today + 1 →
      walkMissing ignored existing today cur fuel =
        (List.range' cur fuel).filter (missingDay ignored existing) := by
  intro fuel
  induction fuel with
  | zero =>
      intro cur h
      simp [walkMissing, List.range']
  | succ n ihn =>
      intro cur h
      unfold walkMissing
      rw [if_pos (by omega)]
      rw [List.range'_succ, List.filter_cons]
      by_cases hm : missingDay ignored existing cur = true
      · rw [if_pos hm, if_pos hm, ihn (cur + 1) (by omega)]
        rfl
      · rw [if_neg hm, if_neg hm, ihn (cur + 1) (by omega)]
        rfl

/-- C7 (confirmed): the gap detector returns the empty list for an empty
existing set; otherwise, with `oldest` the minimum existing date and any
`today ≥ oldest`, it returns, sorted ascending, exactly the calendar days
`oldest ≤ d ≤ today` that fall neither on the ignored weekday (Monday,
isoweekday 1) nor on a parsed `(day, month)` holiday and that are not
already present. -/
theorem C7_find_missing_dates (existing : List Nat) (ignoredStr : List String)
    (today : Nat) (hne : existing ≠ [])
    (hot : existing.foldl min (existing.headD 0) ≤ today) :
    (∀ (ig : List String) (t : Nat), find_missing_dates [] ig t = []) ∧
    (∀ d, d ∈ find_missing_dates existing ignoredStr today ↔
      (existing.foldl min (existing.headD 0) ≤ d ∧ d ≤ today ∧
        isoweekday d ≠ 1 ∧
        ((ordinalDay d : Int), (ordinalMonth d : Int)) ∉ parseIgnoredDates ignoredStr ∧
        d ∉ existing)) ∧
    List.Sorted (· < ·) (find_missing_dates existing ignoredStr today) := by
  have hunf : find_missing_dates existing ignoredStr today =
      (List.range' (existing.foldl min (existing.headD 0))
        (today + 1 - existing.foldl min (existing.headD 0))).filter
        (missingDay (parseIgnoredDates ignoredStr) existing) := by
    unfold find_missing_dates
    rw [if_neg (by simp [hne])]
    exact walkMissing_eq_filter _ _ _ _ _ (by omega)
  refine ⟨fun ig t => by simp [find_missing_dates], ?_, ?_⟩
  · intro d
    rw [hunf, List.mem_filter, List.mem_range'_1]
    constructor
    · rintro ⟨⟨h1, h2⟩, hm⟩
      unfold missingDay at hm
      rcases Bool.and_eq_true_iff.mp hm with ⟨hm1, hm3⟩
      rcases Bool.and_eq_true_iff.mp hm1 with ⟨hw, hm2⟩
      refine ⟨h1, by omega, ?_, ?_, ?_⟩
      · intro hwe
        rw [bne_iff_ne] at hw
        exact hw hwe
      · intro hmem
        have := List.elem_eq_true_of_mem hmem
        rw [show (parseIgnoredDates ignoredStr).contains
            ((ordinalDay d : Int), (ordinalMonth d : Int)) = true from this] at hm2
        exact absurd hm2 (by decide)
      · intro hmem
        have := List.elem_eq_true_of_mem hmem
        rw [show existing.contains d = true from this] at hm3
        exact absurd hm3 (by decide)
    · rintro ⟨h1, h2, hw, hig, hex⟩
      refine ⟨⟨h1, by omega⟩, ?_⟩
      unfold missingDay
      have hw' : (isoweekday d != 1) = true := bne_iff_ne.mpr hw
      have hig' : (parseIgnoredDates ignoredStr).contains
          ((ordinalDay d : Int), (ordinalMonth d : Int)) = false := by
        cases hb : (parseIgnoredDates ignoredStr).contains
            ((ordinalDay d : Int), (ordinalMonth d : Int)) with
        | false => rfl
        | true => exact absurd (List.mem_of_elem_eq_true hb) hig
      have hex' : existing.contains d = false := by
        cases hb : existing.contains d with
        | false => rfl
        | true => exact absurd (List.mem_of_elem_eq_true hb) hex
      rw [hw', hig', hex']
      rfl
  · rw [hunf]
    exact (List.pairwise_lt_range' _ _).filter _

/-- C7 witness: the spec's synthetic scenario — existing
`{2024-01-01, 2024-01-03}`, empty holiday set, today `2024-01-04` — has
`2024-01-02` among the missing dates. -/
theorem C7_find_missing_dates_witness :
    toOrdinal 2024 1 2 ∈ find_missing_dates
      [toOrdinal 2024 1 1, toOrdinal 2024 1 3] [] (toOrdinal 2024 1 4) :=
  ((C7_find_missing_dates [toOrdinal 2024 1 1, toOrdinal 2024 1 3] []
    (toOrdinal 2024 1 4) (by decide) (by decide)).2.1 (toOrdinal 2024 1 2)).mpr
    (by refine ⟨by decide, by decide, by decide, by decide, by decide⟩)

/-- C10 (confirmed): `extract_date_from_filename` is total — every
exception path of the source becomes `None` — and whenever it succeeds
the result is a timezone-aware datetime at midnight UTC of a valid
calendar day. The enumerated failure modes (missing separators, unknown
month name, non-numeric components, impossible day) each yield `None`,
and a well-formed name yields the encoded day. -/
theorem C10_extract_date :
    (∀ (s : String) (dt : PyDateTime), extract_date_from_filename s = some dt →
      dt.utc = true ∧ dt.hour = 0 ∧ dt.minute = 0 ∧ dt.second = 0 ∧
      1 ≤ dt.year ∧ dt.year ≤ 9999 ∧ 1 ≤ dt.month ∧ dt.month ≤ 12 ∧
      1 ≤ dt.day ∧ dt.day ≤ daysInMonth dt.year dt.month) ∧
    extract_date_from_filename "il_manifesto_del_14_gennaio_2024_cover.jpg" =
      some ⟨2024, 1, 14, 0, 0, 0, true⟩ ∧
    extract_date_from_filename "nonsense.jpg" = none ∧
    extract_date_from_filename "il_manifesto_del_14_january_2024_cover.jpg" = none ∧
    extract_date_from_filename "il_manifesto_del_xx_gennaio_2024_cover.jpg" = none ∧
    extract_date_from_filename "il_manifesto_del_32_gennaio_2024_cover.jpg" = none := by
  refine ⟨?_, by decide, by decide, by decide, by decide, by decide⟩
  intro s dt h
  unfold extract_date_from_filename at h
  split at h
  · exact Option.noConfusion h
  · simp only [] at h
    split at h
    · split at h
      · exact Option.noConfusion h
      · split at h
        · unfold mkDatetimeUTC at h
          split at h
          · rename_i hcond
            obtain ⟨hy1, hy2, hm1, hm2, hd1, hd2⟩ := hcond
            cases h
            refine ⟨rfl, rfl, rfl, rfl, ?_, ?_, ?_, ?_, ?_, ?_⟩ <;>
              (dsimp only []; omega)
          · exact Option.noConfusion h
        · exact Option.noConfusion h
    · exact Option.noConfusion h

/-- C10 witness: the totality theorem applied at a well-formed filename. -/
theorem C10_extract_date_witness :
    (⟨2024, 1, 14, 0, 0, 0, true⟩ : PyDateTime).utc = true :=
  (C10_extract_date.1 "il_manifesto_del_14_gennaio_2024_cover.jpg"
    ⟨2024, 1, 14, 0, 0, 0, true⟩ (by decide)).1
